import Mathlib

/-! Verification of the course-generation WebSocket server (`src/index.ts`).

JS strings are modelled as `List Char`.  The regex replacements of the
JSON-normalisation chain in `generateValidJsonWithRetries` are modelled by
structurally recursive functions with the same left-to-right,
global-replacement semantics as the JS `String.replace` calls. -/

namespace Tutorly

/-- The backquote character, written numerically. -/
def tick : Char := Char.ofNat 96

/-- Left curly brace, written numerically. -/
def lbrace : Char := Char.ofNat 123

/-- Right curly brace, written numerically. -/
def rbrace : Char := Char.ofNat 125

/-- Left square bracket. -/
def lbrack : Char := Char.ofNat 91

/-- The NUL character. -/
def nulChar : Char := Char.ofNat 0

/-- The seven-character alternative of the fence-stripping regex:
three backquotes followed by the letters j, s, o, n. -/
def fenceJson : List Char := [tick, tick, tick, 'j', 's', 'o', 'n']

/-- The three-backquote alternative of the fence-stripping regex. -/
def fence3 : List Char := [tick, tick, tick]

/-- One global pass of the fence-removing replacement
(`.replace` of the two fence alternatives by the empty string, line 37 of
`index.ts`): at each position the seven-character alternative is tried
first, then the three-character one; on a match the matched characters are
deleted and scanning resumes after the match, otherwise one character is
kept.  The `Nat` argument counts characters of a match still to be
skipped, keeping the recursion structural in the list. -/
def stripFencesAux : Nat → List Char → List Char
  | _ + 1, [] => []
  | n + 1, _ :: cs => stripFencesAux n cs
  | 0, [] => []
  | 0, c :: cs =>
    if fenceJson.isPrefixOf (c :: cs) then stripFencesAux 6 cs
    else if fence3.isPrefixOf (c :: cs) then stripFencesAux 2 cs
    else c :: stripFencesAux 0 cs

/-- The fence-stripping replacement (line 37 of `index.ts`). -/
def stripFences (l : List Char) : List Char := stripFencesAux 0 l

/-- Whether three consecutive backquotes occur anywhere in the list, i.e.
whether the fence-stripping regex can match. -/
def hasFence : List Char → Bool
  | [] => false
  | c :: cs => fence3.isPrefixOf (c :: cs) || hasFence cs

/-- Removal of every carriage return (line 38 of `index.ts`). -/
def removeCR (l : List Char) : List Char := l.filter fun c => !(c == '\r')

/-- Removal of every NUL byte (line 39 of `index.ts`). -/
def removeNul (l : List Char) : List Char := l.filter fun c => !(c == nulChar)

/-- Removal of every leading character before the first structural opening
character (line 40 of `index.ts`, the anchored regex of one-or-more
characters that are neither a left brace nor a left bracket). -/
def stripLeading (l : List Char) : List Char :=
  l.dropWhile fun c => !(c == lbrace || c == lbrack)

/-- Characters deleted by the control-character replacement: code points
0 to 31 and 127, except newline and tab (lines 41-43 of `index.ts`). -/
def isBadCtrl (c : Char) : Bool :=
  (c.toNat ≤ 31 || c.toNat == 127) && !(c == '\n' || c == '\t')

/-- The control-character replacement of lines 41-43 of `index.ts`. -/
def stripCtrl (l : List Char) : List Char := l.filter fun c => !(isBadCtrl c)

/-- The JS `String.prototype.trim` whitespace set
(WhiteSpace and LineTerminator code points). -/
def isJsWs (c : Char) : Bool :=
  let n := c.toNat
  (9 ≤ n && n ≤ 13) || n == 32 || n == 160 || n == 0x1680 ||
    (0x2000 ≤ n && n ≤ 0x200A) || n == 0x2028 || n == 0x2029 ||
    n == 0x202F || n == 0x205F || n == 0x3000 || n == 0xFEFF

/-- Left half of JS `trim`. -/
def trimLeftL (l : List Char) : List Char := l.dropWhile isJsWs

/-- Right half of JS `trim`. -/
def trimRightL (l : List Char) : List Char := (l.reverse.dropWhile isJsWs).reverse

/-- JS `String.prototype.trim` (line 44 of `index.ts`). -/
def jsTrim (l : List Char) : List Char := trimRightL (trimLeftL l)

/-- The whole normalisation chain applied to the model text before
`JSON.parse` (lines 35-44 of `index.ts`), on character lists. -/
def normalizeL (l : List Char) : List Char :=
  jsTrim (stripCtrl (stripLeading (removeNul (removeCR (stripFences l)))))

/-- The normalisation chain on strings. -/
def normalize (s : String) : String := ⟨normalizeL s.data⟩

/-! ## The retry loop of `generateValidJsonWithRetries` (lines 27-53)

The generation backend is modelled as a function from the one-based
attempt index to `Option String` (`none` is a backend failure, `some` the
raw returned text); `JSON.parse` is an opaque collaborator modelled as a
function `String → Option α` (`none` is a parse exception).  Both failure
shapes are caught by the same `catch`, so one attempt succeeds exactly
when the backend returns text whose normalisation parses. -/

/-- Outcome of the whole retry loop. -/
inductive GenOutcome (α : Type) where
  /-- A `return JSON.parse(text)` from inside the loop. -/
  | ok : α → GenOutcome α
  /-- The thrown `Failed after N attempts.` error, carrying the attempt
  count `N` (the `maxRetries` bound). -/
  | failedAfter : Nat → GenOutcome α
  /-- The loop fell through without returning (only possible when
  `maxRetries < 1`); the JS function resolves with `undefined`. -/
  | noResult : GenOutcome α
deriving DecidableEq, Repr

/-- The body of one attempt: call the backend, normalise, parse.
`none` when the backend fails or the normalised text does not parse. -/
def attemptOnce (backend : Nat → Option String) (parse : String → Option α)
    (i : Nat) : Option α :=
  match backend i with
  | none => none
  | some raw => parse (normalize raw)

/-- The `for (let attempt = 1; attempt <= maxRetries; attempt++)` loop.
The last argument is `maxRetries + 1 - attempt`, the number of loop
iterations still allowed, so that the recursion is structural; the
returned `Nat` counts the backend calls actually made. -/
def genAux (step : Nat → Option α) (maxRetries : Nat) :
    Nat → Nat → GenOutcome α × Nat
  | _, 0 => (.noResult, 0)
  | attempt, remaining + 1 =>
    match step attempt with
    | some v => (.ok v, 1)
    | none =>
      if remaining = 0 then (.failedAfter maxRetries, 1)
      else
        let r := genAux step maxRetries (attempt + 1) remaining
        (r.1, r.2 + 1)

/-- The whole of `generateValidJsonWithRetries`, returning the outcome
together with the number of backend calls made. -/
def generateValidJsonWithRetries (backend : Nat → Option String)
    (parse : String → Option α) (maxRetries : Nat) : GenOutcome α × Nat :=
  genAux (attemptOnce backend parse) maxRetries 1 maxRetries

/-! ## JS numbers and the time-budget computation (lines 96-99)

JS double arithmetic is modelled with exact rationals extended with the
special values `NaN` and signed infinity.  For every computation the
claims mention (`Number('') * 60`, `Number('10') * 60 * 0.8 / 5`, the
divisions by a zero lesson count, `Number` of unparseable text) the JS
double result coincides with this idealisation. -/

/-- A JS number: an exact rational, an infinity (the `Bool` is the sign,
`true` for positive), or `NaN`. -/
inductive JsNum where
  | num : ℚ → JsNum
  | inf : Bool → JsNum
  | nan : JsNum
deriving DecidableEq, Repr

/-- Whether a JS number is finite. -/
def JsNum.isFinite : JsNum → Bool
  | .num _ => true
  | _ => false

/-- JS multiplication on the model. -/
def jsMul : JsNum → JsNum → JsNum
  | .nan, _ => .nan
  | _, .nan => .nan
  | .num a, .num b => .num (a * b)
  | .num a, .inf s => if a = 0 then .nan else .inf (decide (0 < a) == s)
  | .inf s, .num b => if b = 0 then .nan else .inf (decide (0 < b) == s)
  | .inf s, .inf t => .inf (s == t)

/-- JS division on the model (division by zero gives a signed infinity,
zero by zero gives `NaN`). -/
def jsDiv : JsNum → JsNum → JsNum
  | .nan, _ => .nan
  | _, .nan => .nan
  | .num a, .num b =>
    if b = 0 then (if a = 0 then .nan else .inf (decide (0 < a)))
    else .num (a / b)
  | .num _, .inf _ => .num 0
  | .inf s, .num b => .inf (s == decide (0 ≤ b))
  | .inf _, .inf _ => .nan

/-- Digit run to a natural number. -/
def digitsToNat (l : List Char) : Nat :=
  l.foldl (fun a c => a * 10 + (c.toNat - 48)) 0

/-- An unsigned decimal literal: a digit run, optionally containing one
decimal point with digits on at least one side. -/
def parseUnsignedDec (l : List Char) : Option ℚ :=
  let ip := l.takeWhile fun c => c.isDigit
  let rest := l.dropWhile fun c => c.isDigit
  match rest with
  | [] => if ip.isEmpty then none else some (digitsToNat ip)
  | c :: fp =>
    if c == '.' && fp.all (fun d => d.isDigit) && !(ip.isEmpty && fp.isEmpty) then
      some ((digitsToNat ip : ℚ) + (digitsToNat fp : ℚ) / (10 : ℚ) ^ fp.length)
    else none

/-- The JS `Number(string)` conversion, restricted to the decimal
fragment of the grammar: surrounding whitespace is trimmed, the empty
remainder converts to `0`, an optionally signed decimal literal converts
to its value, and everything else converts to `NaN`.  (Hex, binary and
exponent forms of the full grammar are omitted; nothing in the repository
relies on them.) -/
def jsToNumber (s : String) : JsNum :=
  match jsTrim s.data with
  | [] => .num 0
  | '+' :: l => match parseUnsignedDec l with
    | some q => .num q
    | none => .nan
  | '-' :: l => match parseUnsignedDec l with
    | some q => .num (-q)
    | none => .nan
  | l => match parseUnsignedDec l with
    | some q => .num q
    | none => .nan

/-- Line 96 of `index.ts`: `Number(timeCommitment) * 60`. -/
def totalTimeMinutes (timeCommitment : String) : JsNum :=
  jsMul (jsToNumber timeCommitment) (.num 60)

/-- Line 98 of `index.ts`: `(totalTimeMinutes * 0.8) / numberOfLessons`. -/
def lessonTimePerLesson (timeCommitment : String) (numberOfLessons : Nat) : JsNum :=
  jsDiv (jsMul (totalTimeMinutes timeCommitment) (.num (4 / 5)))
    (.num numberOfLessons)

/-- Line 99 of `index.ts`: `(totalTimeMinutes * 0.2) / numberOfLessons`. -/
def quizTimePerLesson (timeCommitment : String) (numberOfLessons : Nat) : JsNum :=
  jsDiv (jsMul (totalTimeMinutes timeCommitment) (.num (1 / 5)))
    (.num numberOfLessons)

/-! ## Data model of the pipeline (lines 55-268)

Structured stage outputs are modelled with typed records carrying exactly
the fields the handler reads; block payloads and the post-course artifact
are opaque, so those are a type parameter `α`.  `crypto.randomUUID()` is
modelled by a fresh-identifier supply: a `Nat` counter threaded through
the run, incremented at every generated block. -/

/-- One entry of `syllabusJson.lessons`. -/
structure LessonStub where
  title : String
  duration : String
deriving DecidableEq, Repr

/-- The parsed syllabus-stage output. -/
structure Syllabus where
  title : String
  description : String
  lessons : List LessonStub
deriving DecidableEq, Repr

/-- The parsed lesson-context-stage output (the handler reads only
`title` and `objective`). -/
structure LessonContext where
  title : String
  objective : String
deriving DecidableEq, Repr

/-- One raw content block of the section-content-stage output.  `content`
and `order` may be absent in the model output. -/
structure RawBlock (α : Type) where
  type : String
  content : Option α
  order : Option Int
deriving DecidableEq, Repr

/-- One section of the section-content-stage output. -/
structure SectionC (α : Type) where
  title : String
  contentBlocks : List (RawBlock α)
deriving DecidableEq, Repr

/-- The parsed section-content-stage output. -/
structure SectionContent (α : Type) where
  sections : List (SectionC α)
deriving DecidableEq, Repr

/-- One question of the quiz-stage output; `options`, `correctAnswers`,
`explanation` and `rubric` may be absent. -/
structure RawQuestion where
  number : Int
  question : String
  type : String
  options : Option (List String)
  marks : Int
  correctAnswers : Option (List String)
  explanation : Option String
  rubric : Option (List String)
deriving DecidableEq, Repr

/-- The parsed quiz-stage output. -/
structure RawQuiz where
  title : String
  duration : String
  totalMarks : Int
  passingMarks : Int
  questions : List RawQuestion
deriving DecidableEq, Repr

/-- The in-memory content block built at lines 148-156 of `index.ts`. -/
structure ContentBlock (α : Type) where
  id : Nat
  order : Int
  type : String
  text : Option α
  code : Option α
  math : Option α
  graph : Option α
deriving DecidableEq, Repr

/-- Lines 148-156 of `index.ts`: the streamed in-memory block, with the
payload field selected by strict string comparison on `block.type` and
the stream `order` taken from the model hint (`block.order ?? 0`). -/
def mkContentBlock (id : Nat) (b : RawBlock α) : ContentBlock α where
  id := id
  order := b.order.getD 0
  type := b.type
  text := if b.type = "TEXT" then b.content else none
  code := if b.type = "CODE" then b.content else none
  math := if b.type = "MATH" then b.content else none
  graph := if b.type = "GRAPH" then b.content else none

/-- How many of the four payload fields of a built block are populated. -/
def populatedCount (c : ContentBlock α) : Nat :=
  (if c.text.isSome then 1 else 0) + (if c.code.isSome then 1 else 0) +
    (if c.math.isSome then 1 else 0) + (if c.graph.isSome then 1 else 0)

/-- The inner loop of lines 146-168: the blocks of one section paired
with the section title, with fresh identifiers from `sid` on; also
returns the next fresh identifier. -/
def flattenSec (sid : Nat) (title : String) :
    List (RawBlock α) → List (String × ContentBlock α) × Nat
  | [] => ([], sid)
  | b :: rest =>
    let r := flattenSec (sid + 1) title rest
    ((title, mkContentBlock sid b) :: r.1, r.2)

/-- The two nested loops of lines 146-168: every section's blocks
flattened into one sequence in section-then-block traversal order. -/
def flattenSections (sid : Nat) :
    List (SectionC α) → List (String × ContentBlock α) × Nat
  | [] => ([], sid)
  | s :: rest =>
    let r1 := flattenSec sid s.title s.contentBlocks
    let r2 := flattenSections r1.2 rest
    (r1.1 ++ r2.1, r2.2)

/-- Flattened blocks with sequential identifiers: the specification view
of `flattenSections` after dropping section titles. -/
def mapWithIds (sid : Nat) : List (RawBlock α) → List (ContentBlock α)
  | [] => []
  | b :: rest => mkContentBlock sid b :: mapWithIds (sid + 1) rest

/-- The per-lesson accumulator pushed at lines 187-193 of `index.ts`. -/
structure LessonRecord (α : Type) where
  lessonTitle : String
  lessonDuration : String
  context : LessonContext
  allContentBlocks : List (ContentBlock α)
  quizJson : RawQuiz
deriving DecidableEq, Repr

/-- One question of the persistence payload (lines 245-254). -/
structure DbQuestion where
  number : Int
  question : String
  type : String
  options : List String
  marks : Int
  correctAnswers : List String
  explanation : String
  rubric : List String
deriving DecidableEq, Repr

/-- The quiz part of the persistence payload (lines 236-256). -/
structure DbQuiz where
  title : String
  duration : String
  totalMarks : Int
  passingMarks : Int
  isCompleted : Bool
  gainedMarks : Int
  timeTaken : Int
  questions : List DbQuestion
deriving DecidableEq, Repr

/-- One content block of the persistence payload (lines 226-233); the
stored row receives a fresh store-generated identifier, so no `id` field
appears in the payload. -/
structure DbBlock (α : Type) where
  order : Nat
  type : String
  text : Option α
  code : Option α
  math : Option α
  graph : Option α
deriving DecidableEq, Repr

/-- One lesson of the persistence payload (lines 220-258). -/
structure DbLesson (α : Type) where
  title : String
  description : String
  duration : String
  order : Nat
  contentBlocks : List (DbBlock α)
  quizz : DbQuiz
deriving DecidableEq, Repr

/-- The whole `db.course.create` payload (lines 214-264); the summary,
key-point and analytics artifacts are carried opaquely. -/
structure CourseData (α : Type) where
  title : String
  description : String
  userId : String
  lessons : List (DbLesson α)
  postData : α
deriving DecidableEq, Repr

/-- Lines 245-254 of `index.ts`: one persisted question, with the
nullish-coalescing defaults and no per-type validation. -/
def mkDbQuestion (q : RawQuestion) : DbQuestion where
  number := q.number
  question := q.question
  type := q.type
  options := q.options.getD []
  marks := q.marks
  correctAnswers := q.correctAnswers.getD []
  explanation := q.explanation.getD "Explanation not provided."
  rubric := q.rubric.getD []

/-- Lines 236-256 of `index.ts`: the persisted quiz, retitled from the
lesson context and initialised as not completed. -/
def mkDbQuiz (contextTitle : String) (qz : RawQuiz) : DbQuiz where
  title := contextTitle ++ " Quiz"
  duration := qz.duration
  totalMarks := qz.totalMarks
  passingMarks := qz.passingMarks
  isCompleted := false
  gainedMarks := 0
  timeTaken := 0
  questions := qz.questions.map mkDbQuestion

/-- Lines 226-233 of `index.ts`: the persisted blocks, with `order`
reassigned positionally to `blockIdx + 1` (the in-memory `order` and `id`
fields are not sent). -/
def mkDbBlocksFrom (i : Nat) : List (ContentBlock α) → List (DbBlock α)
  | [] => []
  | b :: rest =>
    ⟨i + 1, b.type, b.text, b.code, b.math, b.graph⟩ :: mkDbBlocksFrom (i + 1) rest

/-- The persisted block list of one lesson, from index 0. -/
def mkDbBlocks (l : List (ContentBlock α)) : List (DbBlock α) := mkDbBlocksFrom 0 l

/-- Lines 220-258 of `index.ts`: the persisted lessons, titled and
described from the lesson context and ordered by list position. -/
def mkDbLessonsFrom (idx : Nat) : List (LessonRecord α) → List (DbLesson α)
  | [] => []
  | l :: rest =>
    ⟨l.context.title, l.context.objective, l.lessonDuration, idx,
      mkDbBlocks l.allContentBlocks, mkDbQuiz l.context.title l.quizJson⟩ ::
      mkDbLessonsFrom (idx + 1) rest

/-- Lines 214-264 of `index.ts`: the whole persistence payload. -/
def buildCourseData (syl : Syllabus) (userId : String)
    (recs : List (LessonRecord α)) (post : α) : CourseData α where
  title := syl.title
  description := syl.description
  userId := userId
  lessons := mkDbLessonsFrom 0 recs
  postData := post

/-! ## The message handler as a run function (lines 58-277)

Each `sendData` call becomes one `Event`; each
`generateValidJsonWithRetries` call site becomes an oracle giving either
the parsed stage output or the exhaustion failure (claim C1 settles the
internals of the retry loop itself); `db.course.create` becomes an oracle
from the payload to a created identifier or a store failure.  The run
returns the emitted events and the list of `db.course.create` calls
made. -/

/-- One message sent over the socket. -/
inductive Event (α : Type) where
  /-- A tagged started object, such as the syllabus started event. -/
  | stageStarted : String → Event α
  /-- A free-text progress notice. -/
  | notice : String → Event α
  /-- The syllabus completed event with the parsed syllabus. -/
  | syllabusCompleted : Syllabus → Event α
  /-- The lesson started event with the stub title. -/
  | lessonStarted : String → Event α
  /-- One streamed content block, with its lesson and section titles. -/
  | contentBlockEv : String → String → ContentBlock α → Event α
  /-- The quiz completed event with the parsed quiz. -/
  | quizCompleted : RawQuiz → Event α
  /-- The terminal completed event with the created course identifier. -/
  | completed : Nat → Event α
  /-- The terminal generic error event. -/
  | errorEv : Event α
deriving DecidableEq, Repr

/-- Whether an event is terminal (completed or error). -/
def Event.isTerminal : Event α → Bool
  | .completed _ => true
  | .errorEv => true
  | _ => false

/-- The outcomes of the five generation call sites and of the store, per
run.  Per-lesson oracles are indexed by the lesson's position. -/
structure Oracles (α : Type) where
  syllabusR : Except Unit Syllabus
  contextR : Nat → Except Unit LessonContext
  sectionsR : Nat → Except Unit (SectionContent α)
  quizR : Nat → Except Unit RawQuiz
  postR : Except Unit α
  dbR : CourseData α → Except Unit Nat

/-- The parsed inbound request after the destructuring defaults of lines
60-72; a missing `topic` or `userId` is the empty string (the only falsy
`string` value). -/
structure Request where
  topic : String
  userId : String
  level : String
  preferredTopics : String
  dislikedTopics : String
  goal : String
  timeCommitment : String
  learningStyle : String
deriving DecidableEq, Repr

/-- Lines 108-194 for one lesson: the three sub-stage calls in order,
events as emitted, the fresh-identifier counter threaded through, and
either the finished accumulator entry or the propagated failure. -/
def runLesson (or : Oracles α) (i : Nat) (sid : Nat) (stub : LessonStub) :
    List (Event α) × Nat × Except Unit (LessonRecord α) :=
  let evStart : List (Event α) := [.lessonStarted stub.title]
  match or.contextR i with
  | .error e => (evStart, sid, .error e)
  | .ok ctx =>
    match or.sectionsR i with
    | .error e => (evStart, sid, .error e)
    | .ok sc =>
      let fl := flattenSections sid sc.sections
      let blockEvs := fl.1.map fun p => Event.contentBlockEv stub.title p.1 p.2
      match or.quizR i with
      | .error e => (evStart ++ blockEvs, fl.2, .error e)
      | .ok quiz =>
        (evStart ++ blockEvs ++ [.quizCompleted quiz], fl.2,
          .ok ⟨stub.title, stub.duration, ctx, fl.1.map Prod.snd, quiz⟩)

/-- The `for (const lessonObj of syllabusJson.lessons)` loop, processing
stubs strictly sequentially from position `i`, stopping at the first
failure. -/
def runLessons (or : Oracles α) :
    List LessonStub → Nat → Nat →
      List (Event α) × Nat × Except Unit (List (LessonRecord α))
  | [], _, sid => ([], sid, .ok [])
  | stub :: rest, i, sid =>
    let r := runLesson or i sid stub
    match r.2.2 with
    | .error e => (r.1, r.2.1, .error e)
    | .ok rec =>
      let r2 := runLessons or rest (i + 1) r.2.1
      match r2.2.2 with
      | .error e => (r.1 ++ r2.1, r2.2.1, .error e)
      | .ok recs => (r.1 ++ r2.1, r2.2.1, .ok (rec :: recs))

/-- The emitted events and the `db.course.create` calls of one run. -/
structure RunResult (α : Type) where
  events : List (Event α)
  creates : List (CourseData α)
deriving DecidableEq, Repr

/-- The whole message handler (lines 58-277): validation, the staged
generation sequence, the single persistence call, and the terminal event;
any failure jumps to the catch block, which emits the one generic error
event.  The time budgets of lines 96-99 feed only prompt text, which is
out of scope of the run's observable behaviour (`totalTimeMinutes`,
`lessonTimePerLesson` and `quizTimePerLesson` model them separately). -/
def runPipeline (or : Oracles α) (req : Request) : RunResult α :=
  if req.topic = "" ∨ req.userId = "" then ⟨[.errorEv], []⟩
  else
    let evs0 : List (Event α) :=
      [.stageStarted "syllabus", .notice "Generating syllabus..."]
    match or.syllabusR with
    | .error _ => ⟨evs0 ++ [.errorEv], []⟩
    | .ok syl =>
      let evs1 := evs0 ++ [.syllabusCompleted syl]
      let rl := runLessons or syl.lessons 0 0
      match rl.2.2 with
      | .error _ => ⟨evs1 ++ rl.1 ++ [.errorEv], []⟩
      | .ok recs =>
        let evs2 := evs1 ++ rl.1 ++ [.notice "Generating post-course content..."]
        match or.postR with
        | .error _ => ⟨evs2 ++ [.errorEv], []⟩
        | .ok post =>
          let evs3 := evs2 ++ [.notice "Saving to database..."]
          let cd := buildCourseData syl req.userId recs post
          match or.dbR cd with
          | .error _ => ⟨evs3 ++ [.errorEv], [cd]⟩
          | .ok cid =>
            ⟨evs3 ++ [.completed cid, .notice "Course generation complete."], [cd]⟩

/-! ## Concrete sample data for instantiations -/

/-- A valid request with a ten-hour time commitment. -/
def sampleReq : Request := ⟨"Algebra", "user-1", "", "", "", "", "10", ""⟩

/-- A three-lesson syllabus. -/
def sampleSyllabus : Syllabus :=
  ⟨"Course", "Desc",
    [⟨"L1", "10 minutes"⟩, ⟨"L2", "20 minutes"⟩, ⟨"L3", "30 minutes"⟩]⟩

/-- A section-content result with one text block. -/
def sampleSections : SectionContent String :=
  ⟨[⟨"s1", [⟨"TEXT", some "hello", some 5⟩]⟩]⟩

/-- A one-question quiz result. -/
def sampleQuiz : RawQuiz :=
  ⟨"Quiz title", "10 minutes", 50, 30,
    [⟨1, "Q?", "MCQ", some ["A", "B"], 10, some ["A"], none, none⟩]⟩

/-- Oracles on which every generation call and the store succeed. -/
def okOracles : Oracles String where
  syllabusR := .ok sampleSyllabus
  contextR := fun _ => .ok ⟨"CT", "CO"⟩
  sectionsR := fun _ => .ok sampleSections
  quizR := fun _ => .ok sampleQuiz
  postR := .ok "post"
  dbR := fun _ => .ok 42

/-- Oracles failing exactly at the quiz stage of the second lesson. -/
def quizFailOracles : Oracles String :=
  { okOracles with quizR := fun i => if i = 1 then .error () else .ok sampleQuiz }

/-- Oracles whose syllabus stage fails. -/
def syllabusFailOracles : Oracles String :=
  { okOracles with syllabusR := .error () }

/-- Oracles failing exactly at the context stage of the first lesson. -/
def contextFailOracles : Oracles String :=
  { okOracles with contextR := fun i => if i = 0 then .error () else .ok ⟨"CT", "CO"⟩ }

/-- Oracles failing exactly at the section stage of the third lesson. -/
def sectionsFailOracles : Oracles String :=
  { okOracles with sectionsR := fun i => if i = 2 then .error () else .ok sampleSections }

/-- Oracles failing exactly at the post-course stage. -/
def postFailOracles : Oracles String :=
  { okOracles with postR := .error () }

/-- Oracles whose syllabus stage yields an empty lesson list. -/
def emptyOracles : Oracles String :=
  { okOracles with syllabusR := .ok ⟨"Course", "Desc", []⟩ }

/-- A section-content result with three sections of two blocks each,
carrying assorted model-supplied order hints. -/
def sections32 : List (SectionC String) :=
  [⟨"s1", [⟨"TEXT", some "a", some 9⟩, ⟨"CODE", some "b", none⟩]⟩,
    ⟨"s2", [⟨"MATH", some "c", some 0⟩, ⟨"GRAPH", some "d", some 3⟩]⟩,
    ⟨"s3", [⟨"TEXT", some "e", none⟩, ⟨"TEXT", some "f", some 2⟩]⟩]

/-! ## Lemmas about the retry loop -/

/-- One-step unfolding of the loop body. -/
theorem genAux_step_eq (step : Nat → Option α) (m att rem : Nat) :
    genAux step m att (rem + 1) =
      match step att with
      | some v => (.ok v, 1)
      | none =>
        if rem = 0 then (.failedAfter m, 1)
        else ((genAux step m (att + 1) rem).1, (genAux step m (att + 1) rem).2 + 1) :=
  rfl

/-- When every allowed attempt fails, the loop makes one call per allowed
attempt and then throws the exhaustion error. -/
theorem genAux_fail_all (step : Nat → Option α) (m : Nat) :
    ∀ rem att, att + rem = m →
      (∀ i, att ≤ i → i ≤ m → step i = none) →
      genAux step m att (rem + 1) = (.failedAfter m, rem + 1) := by
  intro rem
  induction rem with
  | zero =>
    intro att hsum hfail
    have hs : step att = none := hfail att le_rfl (by omega)
    rw [genAux_step_eq, hs]
    simp
  | succ r ih =>
    intro att hsum hfail
    have hs : step att = none := hfail att le_rfl (by omega)
    have hrec := ih (att + 1) (by omega) (fun i h1 h2 => hfail i (by omega) h2)
    rw [genAux_step_eq, hs]
    simp only [Nat.succ_ne_zero, if_false, hrec]

/-- When the first success is at attempt `k` within the allowed range,
the loop makes exactly the calls up to `k` and returns the parsed
value. -/
theorem genAux_succ_at (step : Nat → Option α) (m : Nat) :
    ∀ rem att k v, att ≤ k → k ≤ att + rem →
      (∀ i, att ≤ i → i < k → step i = none) → step k = some v →
      genAux step m att (rem + 1) = (.ok v, k - att + 1) := by
  intro rem
  induction rem with
  | zero =>
    intro att k v h1 h2 hf hk
    have hka : k = att := by omega
    subst hka
    rw [genAux_step_eq, hk]
    simp
  | succ r ih =>
    intro att k v h1 h2 hf hk
    by_cases hak : k = att
    · subst hak
      rw [genAux_step_eq, hk]
      simp
    · have hs : step att = none := hf att le_rfl (by omega)
      have hrec := ih (att + 1) k v (by omega) (by omega)
        (fun i hi1 hi2 => hf i (by omega) hi2) hk
      rw [genAux_step_eq, hs]
      simp only [Nat.succ_ne_zero, if_false, hrec]
      have harith : k - (att + 1) + 1 + 1 = k - att + 1 := by omega
      rw [harith]

/-- C1.  For every prompt (modelled by the backend and parse oracles) and
every attempt bound of at least one: if every attempt fails (backend
failure or unparseable text), the loop makes exactly `maxRetries` backend
calls and throws the exhaustion error carrying that count; if the first
parseable attempt is attempt `k ≤ maxRetries`, exactly `k` backend calls
are made and the parsed value is returned. -/
theorem claim_C1 (α : Type) (backend : Nat → Option String)
    (parse : String → Option α) (maxRetries : Nat) (hm : 1 ≤ maxRetries) :
    ((∀ i, 1 ≤ i → i ≤ maxRetries → attemptOnce backend parse i = none) →
        generateValidJsonWithRetries backend parse maxRetries =
          (.failedAfter maxRetries, maxRetries)) ∧
      (∀ k v, 1 ≤ k → k ≤ maxRetries →
        (∀ i, 1 ≤ i → i < k → attemptOnce backend parse i = none) →
        attemptOnce backend parse k = some v →
        generateValidJsonWithRetries backend parse maxRetries = (.ok v, k)) := by
  constructor
  · intro hfail
    have h := genAux_fail_all (attemptOnce backend parse) maxRetries
      (maxRetries - 1) 1 (by omega) (fun i hi1 hi2 => hfail i hi1 (by omega))
    rw [show maxRetries - 1 + 1 = maxRetries from by omega] at h
    exact h
  · intro k v hk1 hk2 hbefore hat
    have h := genAux_succ_at (attemptOnce backend parse) maxRetries
      (maxRetries - 1) 1 k v hk1 (by omega) hbefore hat
    rw [show maxRetries - 1 + 1 = maxRetries from by omega,
      show k - 1 + 1 = k from by omega] at h
    exact h

/-- Concrete instantiation of C1: with a backend that always fails and
bound 4, exactly 4 calls are made and the run fails after 4 attempts;
with a backend whose second response normalises and parses, exactly 2
calls are made and the parsed value is returned. -/
theorem claim_C1_witness :
    generateValidJsonWithRetries (fun _ => none) (fun _ => (none : Option Nat)) 4 =
        (.failedAfter 4, 4) ∧
      generateValidJsonWithRetries (fun i => if i = 2 then some "ab" else none)
        (fun s => if s = "" then some 9 else none) 4 = (.ok 9, 2) := by
  constructor
  · exact (claim_C1 Nat (fun _ => none) (fun _ => none) 4 (by decide)).1
      (fun i _ _ => rfl)
  · exact (claim_C1 Nat (fun i => if i = 2 then some "ab" else none)
      (fun s => if s = "" then some 9 else none) 4 (by decide)).2 2 9
      (by decide) (by decide)
      (fun i hi1 hi2 => by
        have : i = 1 := by omega
        subst this
        rfl)
      (by decide)

/-! ## Lemmas about the normalisation chain -/

/-- Unfolding of the fence scan at an unskipped cons cell. -/
theorem stripFencesAux_zero_cons (c : Char) (cs : List Char) :
    stripFencesAux 0 (c :: cs) =
      if fenceJson.isPrefixOf (c :: cs) then stripFencesAux 6 cs
      else if fence3.isPrefixOf (c :: cs) then stripFencesAux 2 cs
      else c :: stripFencesAux 0 cs := rfl

/-- A seven-character fence match begins with a three-backquote match. -/
theorem fence3_isPrefixOf_of_fenceJson (l : List Char)
    (h : fenceJson.isPrefixOf l = true) : fence3.isPrefixOf l = true := by
  rcases l with _ | ⟨a, _ | ⟨b, _ | ⟨c, r⟩⟩⟩
  · simp [fenceJson, List.isPrefixOf] at h
  · simp [fenceJson, List.isPrefixOf] at h
  · simp [fenceJson, List.isPrefixOf] at h
  · simp only [fenceJson, fence3, List.isPrefixOf, Bool.and_eq_true, beq_iff_eq] at h ⊢
    exact ⟨h.1, h.2.1, h.2.2.1, trivial⟩

/-- On text containing no three consecutive backquotes the fence
replacement is the identity. -/
theorem stripFencesAux_id_of_noFence :
    ∀ l : List Char, hasFence l = false → stripFencesAux 0 l = l := by
  intro l
  induction l with
  | nil => intro _; rfl
  | cons c cs ih =>
    intro h
    have h1 : fence3.isPrefixOf (c :: cs) = false ∧ hasFence cs = false := by
      simpa [hasFence] using h
    have h2 : fenceJson.isPrefixOf (c :: cs) = false := by
      cases hj : fenceJson.isPrefixOf (c :: cs)
      · rfl
      · exact absurd (fence3_isPrefixOf_of_fenceJson _ hj) (by simp [h1.1])
    rw [stripFencesAux_zero_cons, if_neg (by simp [h2]), if_neg (by simp [h1.1]),
      ih h1.2]

/-- On text containing no three consecutive backquotes the fence
replacement is the identity. -/
theorem stripFences_id_of_noFence (l : List Char) (h : hasFence l = false) :
    stripFences l = l :=
  stripFencesAux_id_of_noFence l h

/-- Dropping from the front twice is dropping once. -/
theorem dropWhile_twice (p : α → Bool) (l : List α) :
    (l.dropWhile p).dropWhile p = l.dropWhile p := by
  induction l with
  | nil => rfl
  | cons c cs ih =>
    by_cases h : p c
    · rw [List.dropWhile_cons_of_pos h]
      exact ih
    · rw [List.dropWhile_cons_of_neg h, List.dropWhile_cons_of_neg h]

/-- A dropped list is empty or starts with a character failing the
predicate. -/
theorem dropWhile_head_cases (p : α → Bool) (l : List α) :
    l.dropWhile p = [] ∨ ∃ c cs, l.dropWhile p = c :: cs ∧ p c = false := by
  induction l with
  | nil => exact Or.inl rfl
  | cons c cs ih =>
    by_cases h : p c
    · rw [List.dropWhile_cons_of_pos h]
      exact ih
    · exact Or.inr ⟨c, cs, List.dropWhile_cons_of_neg h, by simpa using h⟩

/-- Dropping from the front cannot cross a final element failing the
predicate. -/
theorem dropWhile_append_singleton (p : α → Bool) (c : α) (hc : p c = false)
    (xs : List α) : (xs ++ [c]).dropWhile p = xs.dropWhile p ++ [c] := by
  induction xs with
  | nil => simp [List.dropWhile_cons, hc]
  | cons a as ih =>
    by_cases h : p a
    · rw [List.cons_append, List.dropWhile_cons_of_pos h, ih,
        List.dropWhile_cons_of_pos h]
    · rw [List.cons_append, List.dropWhile_cons_of_neg h,
        List.dropWhile_cons_of_neg h, List.cons_append]

/-- Right trimming commutes with consing a non-whitespace head. -/
theorem trimRightL_cons (c : Char) (l : List Char) (hc : isJsWs c = false) :
    trimRightL (c :: l) = c :: trimRightL l := by
  unfold trimRightL
  rw [List.reverse_cons, dropWhile_append_singleton isJsWs c hc, List.reverse_append]
  simp

/-- Trimming a list whose head is not whitespace only trims the right. -/
theorem jsTrim_cons (c : Char) (l : List Char) (hc : isJsWs c = false) :
    jsTrim (c :: l) = c :: trimRightL l := by
  unfold jsTrim trimLeftL
  rw [List.dropWhile_cons_of_neg (by simp [hc])]
  exact trimRightL_cons c l hc

/-- Right trimming is idempotent. -/
theorem trimRightL_idem (l : List Char) : trimRightL (trimRightL l) = trimRightL l := by
  unfold trimRightL
  rw [List.reverse_reverse, dropWhile_twice]

/-- Left trimming is the identity on an already trimmed list. -/
theorem trimLeftL_trimRightL (l : List Char) :
    trimLeftL (trimRightL (trimLeftL l)) = trimRightL (trimLeftL l) := by
  rcases dropWhile_head_cases isJsWs l with h | ⟨c, cs, h, hc⟩
  · unfold trimLeftL
    rw [h]
    rfl
  · unfold trimLeftL
    rw [h, trimRightL_cons c cs hc, List.dropWhile_cons_of_neg (by simp [hc])]

/-- JS `trim` is idempotent. -/
theorem jsTrim_idem (l : List Char) : jsTrim (jsTrim l) = jsTrim l := by
  unfold jsTrim
  rw [trimLeftL_trimRightL, trimRightL_idem]

/-- Membership survives trimming. -/
theorem mem_of_mem_jsTrim {c : Char} {l : List Char} (h : c ∈ jsTrim l) : c ∈ l := by
  unfold jsTrim trimLeftL trimRightL at h
  rw [List.mem_reverse] at h
  have h2 := (List.dropWhile_sublist isJsWs).subset h
  rw [List.mem_reverse] at h2
  exact (List.dropWhile_sublist isJsWs).subset h2

/-- Every character of a normal form survives the control filter, hence
is not a deleted control character. -/
theorem normalizeL_no_badCtrl (l : List Char) :
    ∀ c ∈ normalizeL l, isBadCtrl c = false := by
  intro c hc
  have h1 : c ∈ stripCtrl (stripLeading (removeNul (removeCR (stripFences l)))) :=
    mem_of_mem_jsTrim hc
  have h2 := List.of_mem_filter h1
  simpa using h2

/-- A normal form is empty or starts with a left brace or bracket. -/
theorem normalizeL_head (l : List Char) :
    normalizeL l = [] ∨ (∃ cs, normalizeL l = lbrace :: cs) ∨
      ∃ cs, normalizeL l = lbrack :: cs := by
  unfold normalizeL stripLeading
  rcases dropWhile_head_cases (fun c => !(c == lbrace || c == lbrack))
    (removeNul (removeCR (stripFences l))) with h | ⟨c, cs, h, hc⟩
  · rw [h]
    exact Or.inl rfl
  · have hcor : c = lbrace ∨ c = lbrack := by
      have hx := hc
      simp at hx
      exact or_iff_not_imp_left.mpr hx
    have hbad : isBadCtrl c = false := by
      rcases hcor with h1 | h1 <;> subst h1 <;> decide
    have hws : isJsWs c = false := by
      rcases hcor with h1 | h1 <;> subst h1 <;> decide
    rw [h, show stripCtrl (c :: cs) = c :: stripCtrl cs from
      List.filter_cons_of_pos (by simp [hbad]), jsTrim_cons _ _ hws]
    rcases hcor with h1 | h1
    · subst h1
      exact Or.inr (Or.inl ⟨_, rfl⟩)
    · subst h1
      exact Or.inr (Or.inr ⟨_, rfl⟩)

/-- C8 (amended).  The normalisation chain is idempotent on every input
whose normal form no longer contains a fence marker (three consecutive
backquotes).  Unconditional idempotence fails: see the counterexample,
where deleting a carriage return merges backquote runs into a new fence
that only the second pass removes. -/
theorem claim_C8 (l : List Char) (h : hasFence (normalizeL l) = false) :
    normalizeL (normalizeL l) = normalizeL l := by
  have hctrl := normalizeL_no_badCtrl l
  have hsf : stripFences (normalizeL l) = normalizeL l :=
    stripFences_id_of_noFence _ h
  have hcr : removeCR (normalizeL l) = normalizeL l := by
    apply List.filter_eq_self.mpr
    intro a ha
    by_cases hax : a = '\r'
    · subst hax
      exact absurd (hctrl _ ha) (by decide)
    · simp [hax]
  have hnul : removeNul (normalizeL l) = normalizeL l := by
    apply List.filter_eq_self.mpr
    intro a ha
    by_cases hax : a = nulChar
    · subst hax
      exact absurd (hctrl _ ha) (by decide)
    · simp [hax]
  have hlead : stripLeading (normalizeL l) = normalizeL l := by
    rcases normalizeL_head l with hsh | ⟨cs, hsh⟩ | ⟨cs, hsh⟩ <;> rw [hsh] <;>
      unfold stripLeading
    · rfl
    · rw [List.dropWhile_cons_of_neg (by decide)]
    · rw [List.dropWhile_cons_of_neg (by decide)]
  have hsc : stripCtrl (normalizeL l) = normalizeL l := by
    apply List.filter_eq_self.mpr
    intro a ha
    simp [hctrl a ha]
  have hjt : jsTrim (normalizeL l) = normalizeL l := by
    rw [show normalizeL l =
      jsTrim (stripCtrl (stripLeading (removeNul (removeCR (stripFences l)))))
      from rfl, jsTrim_idem]
  show jsTrim (stripCtrl (stripLeading (removeNul (removeCR
    (stripFences (normalizeL l)))))) = normalizeL l
  rw [hsf, hcr, hnul, hlead, hsc, hjt]

/-- The idempotence claim is false as stated: on this input the first
pass deletes the carriage return splitting a backquote run, producing a
new fence that only the second pass strips. -/
theorem claim_C8_counterexample :
    normalizeL (normalizeL [lbrace, tick, tick, '\r', tick, rbrace]) ≠
      normalizeL [lbrace, tick, tick, '\r', tick, rbrace] := by decide

/-- Concrete instantiation of the amended C8 on an input whose normal
form is fence-free. -/
theorem claim_C8_witness :
    hasFence (normalizeL ['a', lbrace, rbrace]) = false ∧
      normalizeL (normalizeL ['a', lbrace, rbrace]) = normalizeL ['a', lbrace, rbrace] :=
  ⟨by decide, claim_C8 _ (by decide)⟩

/-! ## The time-budget computation (claim C2) -/

/-- The time-budget claim is false for unparseable `timeCommitment`
text: `Number('abc')` is `NaN`, and `NaN * 60` is `NaN`, not `0`. -/
theorem claim_C2_counterexample :
    jsToNumber "abc" = JsNum.nan ∧ totalTimeMinutes "abc" ≠ JsNum.num 0 := by
  constructor
  · rfl
  · intro h
    exact JsNum.noConfusion h

/-- C2 (amended).  After the syllabus stage `totalTimeMinutes` is the
numeric value of `timeCommitment` times 60; it is `0` when
`timeCommitment` is unset (the empty-string default) but `NaN` — not
`0` — when it is unparseable as a number.  The two budgets divide
`totalTimeMinutes * 0.8` and `totalTimeMinutes * 0.2` by the syllabus
lesson count, one uniform value per lesson; for `timeCommitment`
representing 10 hours and 5 lessons they are 96 and 24 minutes. -/
theorem claim_C2 :
    totalTimeMinutes "" = JsNum.num 0 ∧
      (∀ tc, jsToNumber tc = JsNum.nan → totalTimeMinutes tc = JsNum.nan) ∧
      (∀ tc n, lessonTimePerLesson tc n =
          jsDiv (jsMul (totalTimeMinutes tc) (.num (4 / 5))) (.num n) ∧
        quizTimePerLesson tc n =
          jsDiv (jsMul (totalTimeMinutes tc) (.num (1 / 5))) (.num n)) ∧
      lessonTimePerLesson "10" 5 = JsNum.num 96 ∧
      quizTimePerLesson "10" 5 = JsNum.num 24 := by
  refine ⟨?_, ?_, fun tc n => ⟨rfl, rfl⟩, ?_, ?_⟩
  · rw [show totalTimeMinutes "" = JsNum.num ((0 : ℚ) * 60) from rfl]
    norm_num
  · intro tc h
    unfold totalTimeMinutes
    rw [h]
    rfl
  · simp only [lessonTimePerLesson, totalTimeMinutes,
      show jsToNumber "10" = .num ((digitsToNat ['1', '0'] : ℚ)) from rfl,
      jsMul, jsDiv]
    norm_num [digitsToNat, show '1'.toNat = 49 from by decide,
      show '0'.toNat = 48 from by decide]
  · simp only [quizTimePerLesson, totalTimeMinutes,
      show jsToNumber "10" = .num ((digitsToNat ['1', '0'] : ℚ)) from rfl,
      jsMul, jsDiv]
    norm_num [digitsToNat, show '1'.toNat = 49 from by decide,
      show '0'.toNat = 48 from by decide]

/-- Concrete instantiation of the hypothesis-bearing part of C2: the
unparseable text `xh` converts to `NaN`, so the total is `NaN`. -/
theorem claim_C2_witness :
    jsToNumber "xh" = JsNum.nan ∧ totalTimeMinutes "xh" = JsNum.nan :=
  ⟨rfl, claim_C2.2.1 "xh" rfl⟩

/-! ## Lemmas about the content-block flattening -/

/-- Length of a freshly identified block list. -/
theorem mapWithIds_length (bs : List (RawBlock α)) :
    ∀ sid, (mapWithIds sid bs).length = bs.length := by
  induction bs with
  | nil => intro sid; rfl
  | cons b rest ih =>
    intro sid
    simp [mapWithIds, ih]

/-- Identifier threading splits over appends. -/
theorem mapWithIds_append (xs ys : List (RawBlock α)) :
    ∀ sid, mapWithIds sid (xs ++ ys) =
      mapWithIds sid xs ++ mapWithIds (sid + xs.length) ys := by
  induction xs with
  | nil => intro sid; simp [mapWithIds]
  | cons b rest ih =>
    intro sid
    show mkContentBlock sid b :: mapWithIds (sid + 1) (rest ++ ys) = _
    rw [ih (sid + 1), show sid + 1 + rest.length = sid + (rest.length + 1) from by omega]
    rfl

/-- Positional characterisation: the block at position `j` is the raw
block at position `j`, built with identifier `sid + j`. -/
theorem mapWithIds_getElem? (bs : List (RawBlock α)) :
    ∀ sid j, (mapWithIds sid bs)[j]? =
      (bs[j]?).map fun b => mkContentBlock (sid + j) b := by
  induction bs with
  | nil => intro sid j; simp [mapWithIds]
  | cons b rest ih =>
    intro sid j
    cases j with
    | zero => simp [mapWithIds]
    | succ j =>
      simp only [mapWithIds, List.getElem?_cons_succ, ih (sid + 1) j]
      have : sid + 1 + j = sid + (j + 1) := by omega
      rw [this]

/-- The generated identifiers are consecutive from the supply start. -/
theorem mapWithIds_ids (bs : List (RawBlock α)) :
    ∀ sid, (mapWithIds sid bs).map ContentBlock.id = List.range' sid bs.length := by
  induction bs with
  | nil => intro sid; rfl
  | cons b rest ih =>
    intro sid
    simp only [mapWithIds, List.map_cons, List.length_cons, List.range'_succ, ih (sid + 1)]
    rfl

/-- The inner per-section loop produces exactly the section's blocks with
consecutive fresh identifiers, paired with the section title. -/
theorem flattenSec_spec (title : String) (bs : List (RawBlock α)) :
    ∀ sid, (flattenSec sid title bs).1.map Prod.snd = mapWithIds sid bs ∧
      (flattenSec sid title bs).2 = sid + bs.length := by
  induction bs with
  | nil => intro sid; exact ⟨rfl, rfl⟩
  | cons b rest ih =>
    intro sid
    refine ⟨?_, ?_⟩
    · simp [flattenSec, mapWithIds, (ih (sid + 1)).1]
    · simp only [flattenSec, (ih (sid + 1)).2, List.length_cons]
      omega

/-- The nested loops of lines 146-168 flatten all sections' blocks in
section-then-block traversal order with consecutive fresh identifiers. -/
theorem flattenSections_spec (secs : List (SectionC α)) :
    ∀ sid, (flattenSections sid secs).1.map Prod.snd =
        mapWithIds sid (secs.flatMap SectionC.contentBlocks) ∧
      (flattenSections sid secs).2 =
        sid + (secs.flatMap SectionC.contentBlocks).length := by
  induction secs with
  | nil => intro sid; exact ⟨rfl, rfl⟩
  | cons s rest ih =>
    intro sid
    have h1 := flattenSec_spec s.title s.contentBlocks sid
    have h2 := ih (sid + s.contentBlocks.length)
    constructor
    · simp only [flattenSections, List.map_append, List.flatMap_cons,
        mapWithIds_append, h1.1, h1.2, h2.1]
    · simp only [flattenSections, List.flatMap_cons, List.length_append, h1.2, h2.2]
      omega

/-- The persisted `order` fields count positionally from the start
index plus one, whatever the blocks contain. -/
theorem mkDbBlocksFrom_orders (bs : List (ContentBlock α)) :
    ∀ i, (mkDbBlocksFrom i bs).map DbBlock.order = List.range' (i + 1) bs.length := by
  induction bs with
  | nil => intro i; rfl
  | cons b rest ih =>
    intro i
    simp only [mkDbBlocksFrom, List.map_cons, List.length_cons, List.range'_succ,
      ih (i + 1)]

/-- C3.  For every lesson the flattened block sequence has one entry per
raw block in section-then-block traversal order (position `j` holds the
block built from the `j`-th block of the traversal), the identifiers
attached are pairwise distinct, and the persisted `order` values are the
dense sequence `1..N` for every block list — hence independent of any
model-supplied order hint; on three sections of two blocks each (with
assorted hints) the persisted payload has 6 entries ordered 1 to 6. -/
theorem claim_C3 :
    (∀ (α : Type) (secs : List (SectionC α)) (sid : Nat),
      (flattenSections sid secs).1.map Prod.snd =
          mapWithIds sid (secs.flatMap SectionC.contentBlocks) ∧
        (∀ j, ((flattenSections sid secs).1.map Prod.snd)[j]? =
          ((secs.flatMap SectionC.contentBlocks)[j]?).map
            fun b => mkContentBlock (sid + j) b) ∧
        ((flattenSections sid secs).1.map Prod.snd).length =
          (secs.flatMap SectionC.contentBlocks).length ∧
        (((flattenSections sid secs).1.map Prod.snd).map ContentBlock.id).Nodup ∧
        ∀ blocks : List (ContentBlock α),
          (mkDbBlocks blocks).map DbBlock.order = List.range' 1 blocks.length) ∧
      (mkDbBlocks ((flattenSections 0 sections32).1.map Prod.snd)).map
          DbBlock.order = [1, 2, 3, 4, 5, 6] ∧
      ((flattenSections 0 sections32).1.map Prod.snd).map ContentBlock.id =
        [0, 1, 2, 3, 4, 5] := by
  refine ⟨fun α secs sid => ?_, by decide, by decide⟩
  have hspec := (flattenSections_spec secs sid).1
  refine ⟨hspec, ?_, ?_, ?_, fun blocks => mkDbBlocksFrom_orders blocks 0⟩
  · intro j
    rw [hspec, mapWithIds_getElem?]
  · rw [hspec, mapWithIds_length]
  · rw [hspec, mapWithIds_ids]
    exact List.nodup_range' sid _

/-! ## Lemmas about the lesson loop and the run -/

/-- Unfolding of one lesson run when the context stage fails. -/
theorem runLesson_ctx_error (or : Oracles α) (i sid : Nat) (stub : LessonStub)
    (e : Unit) (h : or.contextR i = .error e) :
    runLesson or i sid stub = ([.lessonStarted stub.title], sid, .error e) := by
  unfold runLesson
  rw [h]

/-- Unfolding of one lesson run when the section stage fails. -/
theorem runLesson_sections_error (or : Oracles α) (i sid : Nat) (stub : LessonStub)
    (cx : LessonContext) (e : Unit) (h1 : or.contextR i = .ok cx)
    (h2 : or.sectionsR i = .error e) :
    runLesson or i sid stub = ([.lessonStarted stub.title], sid, .error e) := by
  unfold runLesson
  rw [h1, h2]

/-- Unfolding of one lesson run when the quiz stage fails. -/
theorem runLesson_quiz_error (or : Oracles α) (i sid : Nat) (stub : LessonStub)
    (cx : LessonContext) (sc : SectionContent α) (e : Unit)
    (h1 : or.contextR i = .ok cx) (h2 : or.sectionsR i = .ok sc)
    (h3 : or.quizR i = .error e) :
    runLesson or i sid stub =
      ([Event.lessonStarted stub.title] ++
          (flattenSections sid sc.sections).1.map
            (fun p => Event.contentBlockEv stub.title p.1 p.2),
        (flattenSections sid sc.sections).2, .error e) := by
  unfold runLesson
  rw [h1, h2, h3]

/-- Unfolding of one lesson run when all three stages succeed. -/
theorem runLesson_ok (or : Oracles α) (i sid : Nat) (stub : LessonStub)
    (cx : LessonContext) (sc : SectionContent α) (qz : RawQuiz)
    (h1 : or.contextR i = .ok cx) (h2 : or.sectionsR i = .ok sc)
    (h3 : or.quizR i = .ok qz) :
    runLesson or i sid stub =
      ([Event.lessonStarted stub.title] ++
          (flattenSections sid sc.sections).1.map
            (fun p => Event.contentBlockEv stub.title p.1 p.2) ++
          [.quizCompleted qz],
        (flattenSections sid sc.sections).2,
        .ok ⟨stub.title, stub.duration, cx, (flattenSections sid sc.sections).1.map Prod.snd, qz⟩) := by
  unfold runLesson
  rw [h1, h2, h3]

/-- Unfolding of the lesson loop at a cons cell. -/
theorem runLessons_cons_eq (or : Oracles α) (stub : LessonStub)
    (rest : List LessonStub) (i sid : Nat) :
    runLessons or (stub :: rest) i sid =
      match (runLesson or i sid stub).2.2 with
      | .error e => ((runLesson or i sid stub).1, (runLesson or i sid stub).2.1, .error e)
      | .ok rec =>
        match (runLessons or rest (i + 1) (runLesson or i sid stub).2.1).2.2 with
        | .error e =>
          ((runLesson or i sid stub).1 ++
            (runLessons or rest (i + 1) (runLesson or i sid stub).2.1).1,
            (runLessons or rest (i + 1) (runLesson or i sid stub).2.1).2.1, .error e)
        | .ok recs =>
          ((runLesson or i sid stub).1 ++
            (runLessons or rest (i + 1) (runLesson or i sid stub).2.1).1,
            (runLessons or rest (i + 1) (runLesson or i sid stub).2.1).2.1,
            .ok (rec :: recs)) := rfl

/-- No event emitted inside one lesson is terminal. -/
theorem runLesson_no_terminal (or : Oracles α) (i sid : Nat) (stub : LessonStub) :
    ∀ e ∈ (runLesson or i sid stub).1, e.isTerminal = false := by
  intro e he
  cases hcx : or.contextR i with
  | error ex =>
    rw [runLesson_ctx_error or i sid stub ex hcx] at he
    simp at he
    subst he
    rfl
  | ok cx =>
    cases hsx : or.sectionsR i with
    | error ex =>
      rw [runLesson_sections_error or i sid stub cx ex hcx hsx] at he
      simp at he
      subst he
      rfl
    | ok sc =>
      cases hqx : or.quizR i with
      | error ex =>
        rw [runLesson_quiz_error or i sid stub cx sc ex hcx hsx hqx] at he
        simp only [List.mem_append, List.mem_map, List.mem_singleton] at he
        rcases he with he | ⟨p, _, he⟩
        · subst he; rfl
        · rw [← he]; rfl
      | ok qz =>
        rw [runLesson_ok or i sid stub cx sc qz hcx hsx hqx] at he
        simp only [List.mem_append, List.mem_map, List.mem_singleton] at he
        rcases he with (he | ⟨p, _, he⟩) | he
        · subst he; rfl
        · rw [← he]; rfl
        · subst he; rfl

/-- No event emitted inside the lesson loop is terminal. -/
theorem runLessons_no_terminal (or : Oracles α) :
    ∀ (stubs : List LessonStub) (i sid : Nat),
      ∀ e ∈ (runLessons or stubs i sid).1, e.isTerminal = false := by
  intro stubs
  induction stubs with
  | nil =>
    intro i sid e he
    simp [runLessons] at he
  | cons stub rest ih =>
    intro i sid e he
    rw [runLessons_cons_eq] at he
    cases hr : (runLesson or i sid stub).2.2 with
    | error ex =>
      rw [hr] at he
      exact runLesson_no_terminal or i sid stub e he
    | ok rec =>
      rw [hr] at he
      cases hr2 : (runLessons or rest (i + 1) (runLesson or i sid stub).2.1).2.2 with
      | error ex =>
        rw [hr2] at he
        simp only [List.mem_append] at he
        rcases he with he | he
        · exact runLesson_no_terminal or i sid stub e he
        · exact ih (i + 1) _ e he
      | ok recs =>
        rw [hr2] at he
        simp only [List.mem_append] at he
        rcases he with he | he
        · exact runLesson_no_terminal or i sid stub e he
        · exact ih (i + 1) _ e he

/-- Length of the persisted lesson list. -/
theorem mkDbLessonsFrom_length (recs : List (LessonRecord α)) :
    ∀ idx, (mkDbLessonsFrom idx recs).length = recs.length := by
  induction recs with
  | nil => intro idx; rfl
  | cons r rest ih =>
    intro idx
    simp [mkDbLessonsFrom, ih]

/-- When every sub-stage oracle succeeds for every processed position,
the loop returns one accumulator entry per stub. -/
theorem runLessons_ok (or : Oracles α) :
    ∀ (stubs : List LessonStub) (i sid : Nat),
      (∀ j, j < stubs.length → ∃ c, or.contextR (i + j) = .ok c) →
      (∀ j, j < stubs.length → ∃ s, or.sectionsR (i + j) = .ok s) →
      (∀ j, j < stubs.length → ∃ q, or.quizR (i + j) = .ok q) →
      ∃ recs, (runLessons or stubs i sid).2.2 = .ok recs ∧
        recs.length = stubs.length := by
  intro stubs
  induction stubs with
  | nil => intro i sid _ _ _; exact ⟨[], rfl, rfl⟩
  | cons stub rest ih =>
    intro i sid hc hs hq
    obtain ⟨cx, hcx⟩ := hc 0 (by simp)
    obtain ⟨sc, hsx⟩ := hs 0 (by simp)
    obtain ⟨qz, hqx⟩ := hq 0 (by simp)
    rw [Nat.add_zero] at hcx hsx hqx
    have hrl := runLesson_ok or i sid stub cx sc qz hcx hsx hqx
    obtain ⟨recs, hrec, hlen⟩ := ih (i + 1) ((flattenSections sid sc.sections).2)
      (fun j hj => by
        have h := hc (j + 1) (by simpa using Nat.succ_lt_succ hj)
        rwa [show i + (j + 1) = i + 1 + j from by omega] at h)
      (fun j hj => by
        have h := hs (j + 1) (by simpa using Nat.succ_lt_succ hj)
        rwa [show i + (j + 1) = i + 1 + j from by omega] at h)
      (fun j hj => by
        have h := hq (j + 1) (by simpa using Nat.succ_lt_succ hj)
        rwa [show i + (j + 1) = i + 1 + j from by omega] at h)
    refine ⟨⟨stub.title, stub.duration, cx,
      (flattenSections sid sc.sections).1.map Prod.snd, qz⟩ :: recs, ?_, by
        simpa using hlen⟩
    rw [runLessons_cons_eq, hrl]
    rcases hr2 : runLessons or rest (i + 1) (flattenSections sid sc.sections).2 with
      ⟨evs2, sid2, r2⟩
    rw [hr2] at hrec
    simp only at hrec
    rw [hrec]

/-- When the three sub-stages of every lesson before position `k`
succeed and at position `k` the first consulted sub-stage to differ
fails — the context stage, or the section stage after a good context, or
the quiz stage after good context and sections — the loop propagates the
failure. -/
theorem runLessons_fail_at (or : Oracles α) :
    ∀ (stubs : List LessonStub) (i sid k : Nat), k < stubs.length →
      (∀ j, j < k → (∃ c, or.contextR (i + j) = .ok c) ∧
        (∃ s, or.sectionsR (i + j) = .ok s) ∧ ∃ q, or.quizR (i + j) = .ok q) →
      (or.contextR (i + k) = .error () ∨
        ((∃ c, or.contextR (i + k) = .ok c) ∧
          (or.sectionsR (i + k) = .error () ∨
            ((∃ s, or.sectionsR (i + k) = .ok s) ∧ or.quizR (i + k) = .error ())))) →
      (runLessons or stubs i sid).2.2 = .error () := by
  intro stubs
  induction stubs with
  | nil => intro i sid k hk; exact absurd hk (by simp)
  | cons stub rest ih =>
    intro i sid k hk hpre hstage
    cases k with
    | zero =>
      rw [Nat.add_zero] at hstage
      rcases hstage with hcx | ⟨⟨cx, hcx⟩, hstage2⟩
      · rw [runLessons_cons_eq, runLesson_ctx_error or i sid stub () hcx]
      · rcases hstage2 with hsx | ⟨⟨sc, hsx⟩, hqx⟩
        · rw [runLessons_cons_eq,
            runLesson_sections_error or i sid stub cx () hcx hsx]
        · rw [runLessons_cons_eq,
            runLesson_quiz_error or i sid stub cx sc () hcx hsx hqx]
    | succ k =>
      obtain ⟨⟨cx, hcx⟩, ⟨sc, hsx⟩, ⟨qz, hqx⟩⟩ := hpre 0 (by omega)
      rw [Nat.add_zero] at hcx hsx hqx
      have hrl := runLesson_ok or i sid stub cx sc qz hcx hsx hqx
      have hrec := ih (i + 1) ((flattenSections sid sc.sections).2) k
        (by simpa using hk)
        (fun j hj => by
          have h := hpre (j + 1) (by omega)
          rwa [show i + (j + 1) = i + 1 + j from by omega] at h)
        (by rwa [show i + (k + 1) = i + 1 + k from by omega] at hstage)
      rw [runLessons_cons_eq, hrl]
      rcases hr2 : runLessons or rest (i + 1) (flattenSections sid sc.sections).2 with
        ⟨evs2, sid2, r2⟩
      rw [hr2] at hrec
      simp only at hrec
      rw [hrec]

/-- C7.  When every generation call yields a valid payload (first
attempt) and the store accepts the write, a full run emits exactly one
terminal event, a completed one, makes exactly one persistence call, and
the persisted course has as many lessons as the generated syllabus. -/
theorem claim_C7 (α : Type) (or : Oracles α) (req : Request) (syl : Syllabus)
    (htopic : req.topic ≠ "") (huser : req.userId ≠ "")
    (hsyl : or.syllabusR = .ok syl)
    (hc : ∀ j, j < syl.lessons.length → ∃ c, or.contextR j = .ok c)
    (hs : ∀ j, j < syl.lessons.length → ∃ s, or.sectionsR j = .ok s)
    (hq : ∀ j, j < syl.lessons.length → ∃ q, or.quizR j = .ok q)
    (hpost : ∃ p, or.postR = .ok p)
    (hdb : ∀ cd, ∃ cid, or.dbR cd = .ok cid) :
    (runPipeline or req).events.countP Event.isTerminal = 1 ∧
      (∃ cid, Event.completed cid ∈ (runPipeline or req).events) ∧
      (runPipeline or req).creates.length = 1 ∧
      ∀ cd ∈ (runPipeline or req).creates, cd.lessons.length = syl.lessons.length := by
  have hcond : ¬(req.topic = "" ∨ req.userId = "") := by
    rintro (h | h)
    · exact htopic h
    · exact huser h
  obtain ⟨p, hp⟩ := hpost
  obtain ⟨recs, hrec, hlen⟩ := runLessons_ok or syl.lessons 0 0
    (fun j hj => by rw [Nat.zero_add]; exact hc j hj)
    (fun j hj => by rw [Nat.zero_add]; exact hs j hj)
    (fun j hj => by rw [Nat.zero_add]; exact hq j hj)
  rcases hrl : runLessons or syl.lessons 0 0 with ⟨evs, sid, r⟩
  rw [hrl] at hrec
  simp only at hrec
  subst hrec
  have hterm : evs.countP Event.isTerminal = 0 := by
    apply List.countP_eq_zero.mpr
    intro e he
    have h := runLessons_no_terminal or syl.lessons 0 0 e (by rw [hrl]; exact he)
    simp [h]
  obtain ⟨cid, hcid⟩ := hdb (buildCourseData syl req.userId recs p)
  have hrun : runPipeline or req =
      ⟨[Event.stageStarted "syllabus", Event.notice "Generating syllabus...",
          Event.syllabusCompleted syl] ++ evs ++
          [Event.notice "Generating post-course content...",
            Event.notice "Saving to database...", Event.completed cid,
            Event.notice "Course generation complete."],
        [buildCourseData syl req.userId recs p]⟩ := by
    unfold runPipeline
    rw [if_neg hcond]
    simp only [hsyl, hrl, hp, hcid]
    simp
  rw [hrun]
  refine ⟨?_, ⟨cid, ?_⟩, rfl, ?_⟩
  · simp [List.countP_append, List.countP_cons, Event.isTerminal, hterm]
  · simp
  · intro cd hcd
    simp only [List.mem_singleton] at hcd
    subst hcd
    simp [buildCourseData, mkDbLessonsFrom_length, hlen]

/-- Concrete instantiation of C7 on the sample oracles: one terminal
completed event, one persistence call, three persisted lessons. -/
theorem claim_C7_witness :
    (runPipeline okOracles sampleReq).events.countP Event.isTerminal = 1 ∧
      (∃ cid, Event.completed cid ∈ (runPipeline okOracles sampleReq).events) ∧
      (runPipeline okOracles sampleReq).creates.length = 1 ∧
      ∀ cd ∈ (runPipeline okOracles sampleReq).creates,
        cd.lessons.length = sampleSyllabus.lessons.length :=
  claim_C7 String okOracles sampleReq sampleSyllabus (by decide) (by decide) rfl
    (fun _ _ => ⟨⟨"CT", "CO"⟩, rfl⟩) (fun _ _ => ⟨sampleSections, rfl⟩)
    (fun _ _ => ⟨sampleQuiz, rfl⟩) ⟨"post", rfl⟩ (fun _ => ⟨42, rfl⟩)

/-- C5.  When any generation stage of a run exhausts its retry budget —
the syllabus stage, the context, section or quiz stage of the first
lesson position `k` to go wrong, or the post-course stage — the run
makes no persistence call and emits exactly one terminal event, the
generic error event: the failure propagates immediately and the run
never reaches the persisting step. -/
theorem claim_C5 (α : Type) (or : Oracles α) (req : Request)
    (htopic : req.topic ≠ "") (huser : req.userId ≠ "")
    (hfail : or.syllabusR = .error () ∨
      ∃ syl, or.syllabusR = .ok syl ∧
        ((∃ k, k < syl.lessons.length ∧
            (∀ j, j < k → (∃ c, or.contextR j = .ok c) ∧
              (∃ s, or.sectionsR j = .ok s) ∧ ∃ q, or.quizR j = .ok q) ∧
            (or.contextR k = .error () ∨
              ((∃ c, or.contextR k = .ok c) ∧
                (or.sectionsR k = .error () ∨
                  ((∃ s, or.sectionsR k = .ok s) ∧ or.quizR k = .error ()))))) ∨
          ((∀ j, j < syl.lessons.length → (∃ c, or.contextR j = .ok c) ∧
              (∃ s, or.sectionsR j = .ok s) ∧ ∃ q, or.quizR j = .ok q) ∧
            or.postR = .error ()))) :
    (runPipeline or req).creates = [] ∧
      (runPipeline or req).events.countP Event.isTerminal = 1 ∧
      Event.errorEv ∈ (runPipeline or req).events := by
  have hcond : ¬(req.topic = "" ∨ req.userId = "") := by
    rintro (h | h)
    · exact htopic h
    · exact huser h
  rcases hfail with hsyl | ⟨syl, hsyl, hrest⟩
  · have hrun : runPipeline or req =
        ⟨[Event.stageStarted "syllabus", Event.notice "Generating syllabus...",
            Event.errorEv], []⟩ := by
      unfold runPipeline
      rw [if_neg hcond]
      simp only [hsyl]
      simp
    rw [hrun]
    refine ⟨rfl, ?_, ?_⟩
    · simp [List.countP_cons, Event.isTerminal]
    · simp
  · rcases hrest with ⟨k, hk, hpre, hstage⟩ | ⟨hall, hpost⟩
    · have hrec := runLessons_fail_at or syl.lessons 0 0 k hk
        (fun j hj => by simpa using hpre j hj)
        (by simpa using hstage)
      rcases hrl : runLessons or syl.lessons 0 0 with ⟨evs, sid, r⟩
      rw [hrl] at hrec
      simp only at hrec
      subst hrec
      have hterm : evs.countP Event.isTerminal = 0 := by
        apply List.countP_eq_zero.mpr
        intro e he
        have h := runLessons_no_terminal or syl.lessons 0 0 e (by rw [hrl]; exact he)
        simp [h]
      have hrun : runPipeline or req =
          ⟨[Event.stageStarted "syllabus", Event.notice "Generating syllabus...",
              Event.syllabusCompleted syl] ++ evs ++ [Event.errorEv], []⟩ := by
        unfold runPipeline
        rw [if_neg hcond]
        simp only [hsyl, hrl]
        simp
      rw [hrun]
      refine ⟨rfl, ?_, ?_⟩
      · simp [List.countP_append, List.countP_cons, Event.isTerminal, hterm]
      · simp
    · obtain ⟨recs, hrec, hlen⟩ := runLessons_ok or syl.lessons 0 0
        (fun j hj => by simpa using (hall j hj).1)
        (fun j hj => by simpa using (hall j hj).2.1)
        (fun j hj => by simpa using (hall j hj).2.2)
      rcases hrl : runLessons or syl.lessons 0 0 with ⟨evs, sid, r⟩
      rw [hrl] at hrec
      simp only at hrec
      subst hrec
      have hterm : evs.countP Event.isTerminal = 0 := by
        apply List.countP_eq_zero.mpr
        intro e he
        have h := runLessons_no_terminal or syl.lessons 0 0 e (by rw [hrl]; exact he)
        simp [h]
      have hrun : runPipeline or req =
          ⟨[Event.stageStarted "syllabus", Event.notice "Generating syllabus...",
              Event.syllabusCompleted syl] ++ evs ++
              [Event.notice "Generating post-course content...", Event.errorEv],
            []⟩ := by
        unfold runPipeline
        rw [if_neg hcond]
        simp only [hsyl, hrl, hpost]
        simp
      rw [hrun]
      refine ⟨rfl, ?_, ?_⟩
      · simp [List.countP_append, List.countP_cons, Event.isTerminal, hterm]
      · simp

/-- Concrete instantiations of C5, one per generation stage: a failing
syllabus stage, a failing context stage (lesson 1), a failing section
stage (lesson 3), a failing quiz stage (lesson 2 of 3), and a failing
post-course stage.  Each run makes no persistence call and emits exactly
one terminal event, the error event. -/
theorem claim_C5_witness :
    ((runPipeline syllabusFailOracles sampleReq).creates = [] ∧
        (runPipeline syllabusFailOracles sampleReq).events.countP Event.isTerminal = 1 ∧
        Event.errorEv ∈ (runPipeline syllabusFailOracles sampleReq).events) ∧
      ((runPipeline contextFailOracles sampleReq).creates = [] ∧
        (runPipeline contextFailOracles sampleReq).events.countP Event.isTerminal = 1 ∧
        Event.errorEv ∈ (runPipeline contextFailOracles sampleReq).events) ∧
      ((runPipeline sectionsFailOracles sampleReq).creates = [] ∧
        (runPipeline sectionsFailOracles sampleReq).events.countP Event.isTerminal = 1 ∧
        Event.errorEv ∈ (runPipeline sectionsFailOracles sampleReq).events) ∧
      ((runPipeline quizFailOracles sampleReq).creates = [] ∧
        (runPipeline quizFailOracles sampleReq).events.countP Event.isTerminal = 1 ∧
        Event.errorEv ∈ (runPipeline quizFailOracles sampleReq).events) ∧
      ((runPipeline postFailOracles sampleReq).creates = [] ∧
        (runPipeline postFailOracles sampleReq).events.countP Event.isTerminal = 1 ∧
        Event.errorEv ∈ (runPipeline postFailOracles sampleReq).events) := by
  refine ⟨?_, ?_, ?_, ?_, ?_⟩
  · exact claim_C5 String syllabusFailOracles sampleReq (by decide) (by decide)
      (Or.inl rfl)
  · exact claim_C5 String contextFailOracles sampleReq (by decide) (by decide)
      (Or.inr ⟨sampleSyllabus, rfl,
        Or.inl ⟨0, by decide, fun j hj => absurd hj (by omega), Or.inl rfl⟩⟩)
  · exact claim_C5 String sectionsFailOracles sampleReq (by decide) (by decide)
      (Or.inr ⟨sampleSyllabus, rfl,
        Or.inl ⟨2, by decide,
          fun j hj => ⟨⟨⟨"CT", "CO"⟩, rfl⟩,
            ⟨sampleSections, by
              rw [show sectionsFailOracles.sectionsR j =
                if j = 2 then Except.error () else Except.ok sampleSections from rfl,
                if_neg (by omega)]⟩,
            ⟨sampleQuiz, rfl⟩⟩,
          Or.inr ⟨⟨⟨"CT", "CO"⟩, rfl⟩, Or.inl rfl⟩⟩⟩)
  · exact claim_C5 String quizFailOracles sampleReq (by decide) (by decide)
      (Or.inr ⟨sampleSyllabus, rfl,
        Or.inl ⟨1, by decide,
          fun j hj => ⟨⟨⟨"CT", "CO"⟩, rfl⟩, ⟨sampleSections, rfl⟩,
            ⟨sampleQuiz, by
              rw [show quizFailOracles.quizR j =
                if j = 1 then Except.error () else Except.ok sampleQuiz from rfl,
                if_neg (by omega)]⟩⟩,
          Or.inr ⟨⟨⟨"CT", "CO"⟩, rfl⟩,
            Or.inr ⟨⟨sampleSections, rfl⟩, rfl⟩⟩⟩⟩)
  · exact claim_C5 String postFailOracles sampleReq (by decide) (by decide)
      (Or.inr ⟨sampleSyllabus, rfl,
        Or.inr ⟨fun j hj => ⟨⟨⟨"CT", "CO"⟩, rfl⟩, ⟨sampleSections, rfl⟩,
          ⟨sampleQuiz, rfl⟩⟩, rfl⟩⟩)

/-- Dividing any JS number by the number zero never yields a finite
number (it is an infinity or `NaN`). -/
theorem jsDiv_num_zero_not_finite (x : JsNum) : (jsDiv x (.num 0)).isFinite = false := by
  cases x with
  | num a =>
    by_cases ha : a = 0
    · simp [jsDiv, ha, JsNum.isFinite]
    · simp [jsDiv, ha, JsNum.isFinite]
  | inf s => simp [jsDiv, JsNum.isFinite]
  | nan => rfl

/-- The zero-lesson claim is false as stated: on a concrete run whose
syllabus stage returns an empty lesson list and whose other collaborators
succeed, no error is emitted; the run completes and persists a course
with zero lessons. -/
theorem claim_C6_counterexample :
    Event.errorEv ∉ (runPipeline emptyOracles sampleReq).events ∧
      (runPipeline emptyOracles sampleReq).events.countP Event.isTerminal = 1 ∧
      Event.completed 42 ∈ (runPipeline emptyOracles sampleReq).events ∧
      (runPipeline emptyOracles sampleReq).creates.length = 1 ∧
      ∀ cd ∈ (runPipeline emptyOracles sampleReq).creates, cd.lessons.length = 0 := by
  decide

/-- C6 (amended).  A syllabus with an empty lesson list is not a failure
in the code: the zero-lesson-count divisions yield non-finite JS numbers
(no exception in JS), the lesson loop is skipped, and the run persists a
course with zero lessons and emits the terminal completed event. -/
theorem claim_C6 (α : Type) (or : Oracles α) (req : Request) (title desc : String)
    (htopic : req.topic ≠ "") (huser : req.userId ≠ "")
    (hsyl : or.syllabusR = .ok ⟨title, desc, []⟩)
    (hpost : ∃ p, or.postR = .ok p)
    (hdb : ∀ cd, ∃ cid, or.dbR cd = .ok cid) :
    ((runPipeline or req).creates.length = 1 ∧
        ∀ cd ∈ (runPipeline or req).creates, cd.lessons = []) ∧
      (runPipeline or req).events.countP Event.isTerminal = 1 ∧
      (∃ cid, Event.completed cid ∈ (runPipeline or req).events) ∧
      Event.errorEv ∉ (runPipeline or req).events ∧
      ∀ tc, (lessonTimePerLesson tc 0).isFinite = false ∧
        (quizTimePerLesson tc 0).isFinite = false := by
  have hcond : ¬(req.topic = "" ∨ req.userId = "") := by
    rintro (h | h)
    · exact htopic h
    · exact huser h
  obtain ⟨p, hp⟩ := hpost
  obtain ⟨cid, hcid⟩ := hdb (buildCourseData ⟨title, desc, []⟩ req.userId [] p)
  have hrun : runPipeline or req =
      ⟨[Event.stageStarted "syllabus", Event.notice "Generating syllabus...",
          Event.syllabusCompleted ⟨title, desc, []⟩,
          Event.notice "Generating post-course content...",
          Event.notice "Saving to database...", Event.completed cid,
          Event.notice "Course generation complete."],
        [buildCourseData ⟨title, desc, []⟩ req.userId [] p]⟩ := by
    unfold runPipeline
    rw [if_neg hcond]
    simp only [hsyl]
    simp only [show runLessons or ([] : List LessonStub) 0 0 =
      ([], 0, .ok []) from rfl, hp, hcid]
    simp
  rw [hrun]
  refine ⟨⟨rfl, ?_⟩, ?_, ⟨cid, ?_⟩, ?_, ?_⟩
  · intro cd hcd
    simp only [List.mem_singleton] at hcd
    subst hcd
    rfl
  · simp [List.countP_cons, Event.isTerminal]
  · simp
  · simp
  · intro tc
    constructor
    · unfold lessonTimePerLesson
      rw [show ((0 : Nat) : ℚ) = 0 from Nat.cast_zero]
      exact jsDiv_num_zero_not_finite _
    · unfold quizTimePerLesson
      rw [show ((0 : Nat) : ℚ) = 0 from Nat.cast_zero]
      exact jsDiv_num_zero_not_finite _

/-- Concrete instantiation of the amended C6 on the sample request. -/
theorem claim_C6_witness :
    (runPipeline emptyOracles sampleReq).creates.length = 1 ∧
      ∀ cd ∈ (runPipeline emptyOracles sampleReq).creates, cd.lessons = [] :=
  (claim_C6 String emptyOracles sampleReq "Course" "Desc" (by decide) (by decide)
    rfl ⟨"post", rfl⟩ (fun _ => ⟨42, rfl⟩)).1

/-! ## Payload-field exclusivity (claim C4) -/

/-- The exclusivity claim is false for arbitrary `block.type`: a block
whose type is outside the four known kinds populates none of the four
payload fields, not exactly one. -/
theorem claim_C4_counterexample :
    populatedCount (mkContentBlock 0 (⟨"VIDEO", some "x", none⟩ : RawBlock String)) = 0 ∧
      populatedCount (mkContentBlock 0 (⟨"VIDEO", some "x", none⟩ : RawBlock String)) ≠ 1 := by
  decide

/-- C4 (amended).  For a block whose type is one of the four known kinds
and whose content is present, exactly one payload field of the built
block is populated — the one selected by the type — and the other three
are absent; for any other type, or when the content field is absent, no
payload field is populated. -/
theorem claim_C4 (α : Type) (id : Nat) (b : RawBlock α) :
    (b.content.isSome = true →
      (b.type = "TEXT" →
        (mkContentBlock id b).text = b.content ∧ (mkContentBlock id b).code = none ∧
          (mkContentBlock id b).math = none ∧ (mkContentBlock id b).graph = none ∧
          populatedCount (mkContentBlock id b) = 1) ∧
      (b.type = "CODE" →
        (mkContentBlock id b).code = b.content ∧ (mkContentBlock id b).text = none ∧
          (mkContentBlock id b).math = none ∧ (mkContentBlock id b).graph = none ∧
          populatedCount (mkContentBlock id b) = 1) ∧
      (b.type = "MATH" →
        (mkContentBlock id b).math = b.content ∧ (mkContentBlock id b).text = none ∧
          (mkContentBlock id b).code = none ∧ (mkContentBlock id b).graph = none ∧
          populatedCount (mkContentBlock id b) = 1) ∧
      (b.type = "GRAPH" →
        (mkContentBlock id b).graph = b.content ∧ (mkContentBlock id b).text = none ∧
          (mkContentBlock id b).code = none ∧ (mkContentBlock id b).math = none ∧
          populatedCount (mkContentBlock id b) = 1) ∧
      (b.type ≠ "TEXT" → b.type ≠ "CODE" → b.type ≠ "MATH" → b.type ≠ "GRAPH" →
        populatedCount (mkContentBlock id b) = 0)) ∧
    (b.content = none → populatedCount (mkContentBlock id b) = 0) := by
  constructor
  · intro hc
    refine ⟨?_, ?_, ?_, ?_, ?_⟩
    · intro ht
      simp [mkContentBlock, populatedCount, ht, hc]
    · intro ht
      simp [mkContentBlock, populatedCount, ht, hc]
    · intro ht
      simp [mkContentBlock, populatedCount, ht, hc]
    · intro ht
      simp [mkContentBlock, populatedCount, ht, hc]
    · intro h1 h2 h3 h4
      simp [mkContentBlock, populatedCount, h1, h2, h3, h4]
  · intro hc
    simp [mkContentBlock, populatedCount, hc]

/-- Concrete instantiation of the amended C4 on a CODE block with
present content. -/
theorem claim_C4_witness :
    populatedCount (mkContentBlock 3 (⟨"CODE", some "x", some 2⟩ : RawBlock String)) = 1 ∧
      (mkContentBlock 3 (⟨"CODE", some "x", some 2⟩ : RawBlock String)).code = some "x" := by
  have h := ((claim_C4 String 3 ⟨"CODE", some "x", some 2⟩).1 rfl).2.1 rfl
  exact ⟨h.2.2.2.2, h.1⟩

/-! ## The persisted quiz and lesson payloads (claims C9 and C10) -/

/-- C9.  Every persisted question substitutes the empty list for a
missing `options`, `correctAnswers` or `rubric` field and a fixed phrase
for a missing `explanation`, whatever the question's declared type (the
mapping never inspects the type beyond copying it); every persisted quiz
starts not completed with zero gained marks and zero time taken. -/
theorem claim_C9 :
    (∀ q : RawQuestion,
      (mkDbQuestion q).options = q.options.getD [] ∧
        (mkDbQuestion q).correctAnswers = q.correctAnswers.getD [] ∧
        (mkDbQuestion q).rubric = q.rubric.getD [] ∧
        (mkDbQuestion q).explanation = q.explanation.getD "Explanation not provided." ∧
        (mkDbQuestion q).number = q.number ∧ (mkDbQuestion q).marks = q.marks) ∧
      (∀ (q : RawQuestion) (t : String),
        mkDbQuestion { q with type := t } = { mkDbQuestion q with type := t }) ∧
      ∀ (title : String) (qz : RawQuiz),
        (mkDbQuiz title qz).isCompleted = false ∧
          (mkDbQuiz title qz).gainedMarks = 0 ∧ (mkDbQuiz title qz).timeTaken = 0 ∧
          (mkDbQuiz title qz).questions = qz.questions.map mkDbQuestion :=
  ⟨fun _ => ⟨rfl, rfl, rfl, rfl, rfl, rfl⟩, fun _ _ => rfl,
    fun _ _ => ⟨rfl, rfl, rfl, rfl⟩⟩

/-- Positional characterisation of the persisted lesson list. -/
theorem mkDbLessonsFrom_getElem? (recs : List (LessonRecord α)) :
    ∀ idx j, (mkDbLessonsFrom idx recs)[j]? =
      (recs[j]?).map fun r =>
        (⟨r.context.title, r.context.objective, r.lessonDuration, idx + j,
          mkDbBlocks r.allContentBlocks,
          mkDbQuiz r.context.title r.quizJson⟩ : DbLesson α) := by
  induction recs with
  | nil => intro idx j; simp [mkDbLessonsFrom]
  | cons r rest ih =>
    intro idx j
    cases j with
    | zero => simp [mkDbLessonsFrom]
    | succ j =>
      simp only [mkDbLessonsFrom, List.getElem?_cons_succ, ih (idx + 1) j]
      have : idx + 1 + j = idx + (j + 1) := by omega
      rw [this]

/-- C10.  The persisted lesson at position `j` takes its title and
description from the lesson-context stage output (`context.title`,
`context.objective`), not from the syllabus stub; its quiz's title is
`context.title` followed by a space and the word Quiz, discarding the
quiz stage's own title; and its `order` field is its 0-based position. -/
theorem claim_C10 :
    (∀ (α : Type) (syl : Syllabus) (uid : String) (recs : List (LessonRecord α))
      (post : α) (j : Nat),
      ((buildCourseData syl uid recs post).lessons)[j]? =
        (recs[j]?).map fun r =>
          ⟨r.context.title, r.context.objective, r.lessonDuration, j,
            mkDbBlocks r.allContentBlocks, mkDbQuiz r.context.title r.quizJson⟩) ∧
      ∀ (t : String) (qz : RawQuiz), (mkDbQuiz t qz).title = t ++ " Quiz" := by
  constructor
  · intro α syl uid recs post j
    show (mkDbLessonsFrom 0 recs)[j]? = _
    rw [mkDbLessonsFrom_getElem?]
    simp
  · intro t qz
    rfl

end Tutorly
